import Mathlib

/-!
Verification of the headlamp-intel-gpu-plugin core logic.

This file shallowly embeds the two self-contained pieces of the repository:
the Prometheus exposition-format text parser and metric extractor from
src/api/metrics.ts, and the Kubernetes classification and aggregation
helpers (k8s.ts helpers, the OverviewPage capacity aggregation, and the
plugin-pod deduplication from IntelGpuDataContext.tsx).

Modelling conventions:
  - JavaScript strings are modelled as Lean String and, inside the parser,
    as List Char (a String is its list of characters); all index and slice
    arithmetic mirrors the JS calls (indexOf, lastIndexOf, slice, trim).
  - JavaScript numbers are modelled as exact rationals; NaN and the
    infinities are modelled by Option (none for a non-finite result), which
    matches how the source uses them: parseFloat results are discarded
    unless Number.isFinite, and parseInt results are either guarded with
    an or-zero fallback or (in the one unguarded spot) propagate NaN,
    which the embedding propagates as none.
  - JavaScript objects of known shape become structures with Option fields
    for optional members; records become association lists in insertion
    order, with lookup returning the first match (JS object keys are
    unique, and the embedding only builds lists with unique keys).
  - The untyped input of isIntelGpuNode is modelled by an inductive JsValue
    covering null, undefined, booleans, numbers, strings, arrays and
    objects.
-/

-- ---------------------------------------------------------------------------
-- JavaScript string and number primitives
-- ---------------------------------------------------------------------------

/-- Whitespace characters recognised by JS String.trim and parseFloat
(ASCII subset; the inputs under consideration contain no exotic spaces). -/
def isWsp (c : Char) : Bool :=
  c == ' ' || c == '\t' || c == '\n' || c == '\r' || c == Char.ofNat 11 || c == Char.ofNat 12

/-- The opening curly brace character. -/
def openBraceC : Char := Char.ofNat 123

/-- The closing curly brace character. -/
def closeBraceC : Char := Char.ofNat 125

/-- The double-quote character. -/
def quoteC : Char := Char.ofNat 34

/-- Rebuild a String from its characters. -/
def str (cs : List Char) : String := ⟨cs⟩

/-- JS String.trim on a character list. -/
def trimL (l : List Char) : List Char :=
  ((l.dropWhile isWsp).reverse.dropWhile isWsp).reverse

/-- Boolean prefix test on character lists. -/
def isPre : List Char → List Char → Bool
  | [], _ => true
  | _ :: _, [] => false
  | a :: as, b :: bs => a == b && isPre as bs

/-- JS String.indexOf for a single character: index of first occurrence, -1 if absent. -/
def idxOfC (l : List Char) (c : Char) : Int :=
  match l.findIdx? (fun x => x == c) with
  | some i => (i : Int)
  | none => -1

/-- JS String.lastIndexOf for a single character. -/
def lastIdxOfC (l : List Char) (c : Char) : Int :=
  match l.reverse.findIdx? (fun x => x == c) with
  | some i => ((l.length - 1 - i : Nat) : Int)
  | none => -1

/-- JS String.slice with both bounds (non-negative). -/
def sliceL (l : List Char) (a b : Nat) : List Char :=
  (l.drop a).take (b - a)

/-- JS String.split on the newline character; split of the empty string is
a list holding one empty piece, as in JS. -/
def splitNl : List Char → List (List Char)
  | [] => [[]]
  | c :: rest =>
    if c = '\n' then [] :: splitNl rest
    else
      match splitNl rest with
      | [] => [[c]]
      | h :: t => (c :: h) :: t

/-- Decimal digit test. -/
def isDigitC (c : Char) : Bool := decide ('0' ≤ c) && decide (c ≤ '9')

/-- Word-character test for the label regex (letters, digits, underscore). -/
def isWordC (c : Char) : Bool :=
  (decide ('a' ≤ c) && decide (c ≤ 'z')) || (decide ('A' ≤ c) && decide (c ≤ 'Z'))
    || isDigitC c || c == '_'

/-- Value of a list of decimal digit characters. -/
def digitsVal (cs : List Char) : Nat :=
  cs.foldl (fun a c => a * 10 + (c.toNat - 48)) 0

/-- JS parseFloat followed by the Number.isFinite test: none models a NaN
or infinite result (both are discarded by the parser); some q models a
finite result, represented exactly as a rational. -/
def jsParseFloatL (cs0 : List Char) : Option ℚ :=
  let cs := cs0.dropWhile isWsp
  let sign : ℚ × List Char :=
    match cs with
    | '+' :: t => (1, t)
    | '-' :: t => (-1, t)
    | _ => (1, cs)
  if isPre "Infinity".data sign.2 then none
  else
    let intd := sign.2.takeWhile isDigitC
    let rest1 := sign.2.dropWhile isDigitC
    let frac : List Char × List Char :=
      match rest1 with
      | '.' :: t => (t.takeWhile isDigitC, t.dropWhile isDigitC)
      | _ => ([], rest1)
    if intd = [] ∧ frac.1 = [] then none
    else
      let mantissa : ℚ := (digitsVal intd : ℚ) + (digitsVal frac.1 : ℚ) / ((10 : ℚ) ^ frac.1.length)
      let exp : Int :=
        match frac.2 with
        | e :: t =>
          if e = 'e' ∨ e = 'E' then
            let esign : Int × List Char :=
              match t with
              | '+' :: u => (1, u)
              | '-' :: u => (-1, u)
              | _ => (1, t)
            let eds := esign.2.takeWhile isDigitC
            if eds = [] then 0 else esign.1 * (digitsVal eds : Int)
          else 0
        | [] => 0
      some (sign.1 * mantissa * (10 : ℚ) ^ exp)

/-- JS parseInt with radix 10: none models NaN. -/
def jsParseInt (s : String) : Option Int :=
  let cs := s.data.dropWhile isWsp
  let sign : Int × List Char :=
    match cs with
    | '+' :: t => (1, t)
    | '-' :: t => (-1, t)
    | _ => (1, cs)
  let ds := sign.2.takeWhile isDigitC
  if ds = [] then none else some (sign.1 * (digitsVal ds : Int))

/-- JS Math.round on an exact rational: half-up, toward positive infinity. -/
def jsRound (q : ℚ) : Int :=
  (q + 1/2).num.fdiv ((q + 1/2).den : Int)

/-- JS Math.min on two integers. -/
def jsMin (a b : Int) : Int := if a ≤ b then a else b

-- ---------------------------------------------------------------------------
-- Prometheus text format parser (src/api/metrics.ts)
-- ---------------------------------------------------------------------------

structure MetricSample where
  labels : List (String × String)
  value : ℚ
deriving DecidableEq

structure MetricFamily where
  name : String
  help : String
  type : String
  samples : List MetricSample
deriving DecidableEq

/-- Set a label in a label record: JS object assignment, overriding an
existing key in place or appending a fresh one. -/
def setLabel (lbs : List (String × String)) (k v : String) : List (String × String) :=
  if lbs.any (fun kv => kv.1 == k) then
    lbs.map (fun kv => if kv.1 == k then (k, v) else kv)
  else lbs ++ [(k, v)]

/-- One left-to-right pass of the global regex (\w+)="([^"]*)" over the label
block, as RegExp.exec in a loop: at each position try to match a maximal
word run, an equals sign, a quoted value; on failure advance one character,
on success continue after the closing quote.  Fuel is the list length,
which bounds the number of scan steps. -/
def scanLabels (fuel : Nat) (cs : List Char) (acc : List (String × String)) :
    List (String × String) :=
  match fuel with
  | 0 => acc
  | fuel + 1 =>
    match cs with
    | [] => acc
    | c :: rest =>
      if isWordC c then
        let w := (c :: rest).takeWhile isWordC
        let afterW := (c :: rest).dropWhile isWordC
        match afterW with
        | '=' :: q :: rest2 =>
          if q = quoteC then
            let v := rest2.takeWhile (fun x => x != quoteC)
            let afterV := rest2.dropWhile (fun x => x != quoteC)
            match afterV with
            | _ :: rest3 => scanLabels fuel rest3 (setLabel acc (str w) (str v))
            | [] => scanLabels fuel rest acc
          else scanLabels fuel rest acc
        | _ => scanLabels fuel rest acc
      else scanLabels fuel rest acc

/-- parseLabels from metrics.ts. -/
def parseLabels (cs : List Char) : List (String × String) :=
  scanLabels cs.length cs []

/-- Parser state: the families map (a JS Map in insertion order) and the
metadata trackers currentName, currentHelp, currentType. -/
structure PState where
  families : List MetricFamily
  currentName : String
  currentHelp : String
  currentType : String
deriving DecidableEq

def initPState : PState := ⟨[], "", "", ""⟩

/-- families.get(name): first family with the given name. -/
def getFam (fams : List MetricFamily) (nm : String) : Option MetricFamily :=
  fams.find? (fun f => f.name == nm)

/-- Append a sample to the (existing) family of the given name. -/
def addSample (fams : List MetricFamily) (nm : String) (s : MetricSample) :
    List MetricFamily :=
  fams.map (fun f => if f.name == nm then
    { f with samples := f.samples ++ [s] } else f)

/-- The family-map update at the end of the data-line branch: push the
sample onto the existing family, or create the family, tagging help and
type only when the metric name equals the tracked currentName. -/
def upsertFam (fams : List MetricFamily) (cn ch ct : String) (nm : String)
    (lbs : List (String × String)) (v : ℚ) : List MetricFamily :=
  match getFam fams nm with
  | some _ => addSample fams nm ⟨lbs, v⟩
  | none => fams ++ [⟨nm, if nm = cn then ch else "", if nm = cn then ct else "", [⟨lbs, v⟩]⟩]

/-- Data-line decomposition: locate the first opening and last closing
brace for the labelled form, otherwise split on the last space; returns
the metric name, the parsed labels and the trimmed value tail. -/
def splitData (line : List Char) : Option (String × List (String × String) × List Char) :=
  let openB := idxOfC line openBraceC
  let closeB := lastIdxOfC line closeBraceC
  if 0 ≤ openB ∧ openB < closeB then
    some (str (sliceL line 0 openB.toNat),
      parseLabels (sliceL line (openB.toNat + 1) closeB.toNat),
      trimL (line.drop (closeB.toNat + 1)))
  else
    let sp := lastIdxOfC line ' '
    if sp < 0 then none
    else some (str (sliceL line 0 sp.toNat), [], trimL (line.drop (sp.toNat + 1)))

/-- First whitespace-delimited token of the value tail: valuePart.split(' ')[0]. -/
def firstTok (l : List Char) : List Char :=
  l.takeWhile (fun c => c != ' ')

/-- Prefix "# HELP " as characters. -/
def helpTag : List Char := "# HELP ".data

/-- Prefix "# TYPE " as characters. -/
def typeTag : List Char := "# TYPE ".data

/-- One loop iteration of parsePrometheusText over a raw line. -/
def procLine (st : PState) (raw : List Char) : PState :=
  let line := trimL raw
  if line = [] then st
  else if isPre helpTag line then
    let rest := line.drop 7
    let i := idxOfC rest ' '
    if 0 ≤ i then
      { st with currentName := str (sliceL rest 0 i.toNat),
                currentHelp := str (rest.drop (i.toNat + 1)) }
    else { st with currentName := str rest, currentHelp := "" }
  else if isPre typeTag line then
    let rest := line.drop 7
    let i := idxOfC rest ' '
    { st with currentType := if 0 ≤ i then str (rest.drop (i.toNat + 1)) else "" }
  else if isPre ['#'] line then st
  else
    match splitData line with
    | none => st
    | some (nm, lbs, vp) =>
      match jsParseFloatL (firstTok vp) with
      | none => st
      | some v =>
        { st with families := upsertFam st.families st.currentName st.currentHelp st.currentType nm lbs v }

/-- Run the parser loop over a list of raw lines. -/
def parseLines (ls : List (List Char)) : PState :=
  ls.foldl procLine initPState

/-- parsePrometheusText from metrics.ts: split on newlines and fold the
line processor; the result is the families map in insertion order. -/
def parsePrometheusText (text : String) : List MetricFamily :=
  (parseLines (splitNl text.data)).families

-- ---------------------------------------------------------------------------
-- Metric extractor (src/api/metrics.ts, extractGpuNodeMetrics)
-- ---------------------------------------------------------------------------

structure EngineUtil where
  card : String
  engine : String
  pct : Int
deriving DecidableEq

structure CardValue where
  card : String
  value : ℚ
deriving DecidableEq

structure GpuNodeMetrics where
  nodeName : String
  podName : String
  engineUtilization : List EngineUtil
  boostFreqMhz : List CardValue
  memoryLocalBytes : List CardValue
  memorySystemBytes : List CardValue
  energyMicrojoules : List CardValue
  raw : List MetricFamily
deriving DecidableEq

/-- samplesFor from metrics.ts. -/
def samplesFor (fams : List MetricFamily) (nm : String) : List MetricSample :=
  ((getFam fams nm).map (fun f => f.samples)).getD []

/-- Label lookup in a sample record. -/
def lget (lbs : List (String × String)) (k : String) : Option String :=
  (lbs.find? (fun kv => kv.1 == k)).map (fun kv => kv.2)

/-- The JS nullish-coalescing step a ?? b on possibly-undefined strings. -/
def fb2 (a b : Option String) : Option String :=
  match a with
  | some x => some x
  | none => b

/-- Card of a sample on the active side: labels.card ?? labels.gpu ?? gpu0 literal. -/
def cardOf (s : MetricSample) : String :=
  (fb2 (lget s.labels "card") (lget s.labels "gpu")).getD "gpu0"

/-- Engine of a sample: labels.engine ?? render/0 literal. -/
def engineOf (s : MetricSample) : String :=
  (lget s.labels "engine").getD "render/0"

/-- Card of a sample on the total side: labels.card ?? labels.gpu, with no
literal fallback; undefined when the sample carries neither label. -/
def totalCardOf (s : MetricSample) : Option String :=
  fb2 (lget s.labels "card") (lget s.labels "gpu")

/-- The find over total-ticks samples in the utilization join. -/
def findMatchingTotal (totals : List MetricSample) (card engine : String) :
    Option MetricSample :=
  totals.find? (fun s => totalCardOf s == some card && lget s.labels "engine" == some engine)

/-- One utilization entry for an active-ticks sample.  The source only
clamps the percentage from above (Math.min with 100); the GpuNodeMetrics
interface documents the field as 0 to 100. -/
def utilEntry (totals : List MetricSample) (active : MetricSample) : EngineUtil :=
  let card := cardOf active
  let engine := engineOf active
  let total : ℚ := ((findMatchingTotal totals card engine).map (fun s => s.value)).getD 0
  let pct : Int := if 0 < total then jsMin 100 (jsRound (active.value / total * 100)) else 0
  ⟨card, engine, pct⟩

/-- extractGpuNodeMetrics from metrics.ts. -/
def extractGpuNodeMetrics (fams : List MetricFamily) (nodeName podName : String) :
    GpuNodeMetrics :=
  let activeSamples := samplesFor fams "gpu_i915_engine_active_ticks"
  let totalSamples := samplesFor fams "gpu_i915_engine_total_ticks"
  { nodeName := nodeName
    podName := podName
    engineUtilization := activeSamples.map (utilEntry totalSamples)
    boostFreqMhz := (samplesFor fams "gpu_i915_gt_boost_freq_mhz").map (fun s => ⟨cardOf s, s.value⟩)
    memoryLocalBytes := (samplesFor fams "gpu_i915_memory_local").map (fun s => ⟨cardOf s, s.value⟩)
    memorySystemBytes := (samplesFor fams "gpu_i915_memory_system").map (fun s => ⟨cardOf s, s.value⟩)
    energyMicrojoules := (samplesFor fams "gpu_i915_energy_microjoules").map (fun s => ⟨cardOf s, s.value⟩)
    raw := fams }

-- ---------------------------------------------------------------------------
-- Kubernetes helpers (k8s.ts)
-- ---------------------------------------------------------------------------

/-- Untyped JavaScript value, the input type of the duck-typed classifier
isIntelGpuNode.  Objects are association lists of named fields with unique
keys in insertion order. -/
inductive JsValue where
  | nullV
  | undef
  | boolV (b : Bool)
  | numV (q : ℚ)
  | strV (s : String)
  | arrV (elems : List JsValue)
  | objV (fields : List (String × JsValue))

/-- Property read obj[k], and equally the optional-chained obj?.[k]: any
base value without named fields yields undefined.  (In JS a plain read on
null or undefined throws, but every read in the embedded source is either
on a checked object or optional-chained, so undefined is faithful.) -/
def getField (v : JsValue) (k : String) : JsValue :=
  match v with
  | JsValue.objV fs =>
    match fs.lookup k with
    | some x => x
    | none => JsValue.undef
  | _ => JsValue.undef

/-- JS truthiness. -/
def truthy (v : JsValue) : Bool :=
  match v with
  | JsValue.nullV => false
  | JsValue.undef => false
  | JsValue.boolV b => b
  | JsValue.numV q => decide (q ≠ 0)
  | JsValue.strV s => decide (s ≠ "")
  | JsValue.arrV _ => true
  | JsValue.objV _ => true

/-- The typeof v === object test (arrays and null included, as in JS). -/
def isObjTy (v : JsValue) : Bool :=
  match v with
  | JsValue.objV _ => true
  | JsValue.arrV _ => true
  | JsValue.nullV => true
  | _ => false

/-- Strict equality against the string literal true. -/
def isStrTrue (v : JsValue) : Bool :=
  match v with
  | JsValue.strV s => s == "true"
  | _ => false

/-- Characters of the gpu.intel.com/ resource-name prefix. -/
def gpuPfxChars : List Char := "gpu.intel.com/".data

/-- Key test for the gpu.intel.com/ prefix. -/
def hasGpuPfx (k : String) : Bool := isPre gpuPfxChars k.data

/-- Object.keys.  A non-object base exposes only numeric index keys in JS
(array indices, string indices), none of which can begin with the letter g
of the resource prefix tested here, so they are modelled as no keys. -/
def jsKeys (v : JsValue) : List String :=
  match v with
  | JsValue.objV fs => fs.map (fun kv => kv.1)
  | _ => []

/-- Node label checked by isIntelGpuNode (generic NFD label). -/
def INTEL_GPU_NODE_LABEL : String := "intel.feature.node.kubernetes.io/gpu"

/-- Node role label for discrete GPUs. -/
def INTEL_DISCRETE_GPU_NODE_ROLE : String := "node-role.kubernetes.io/gpu"

/-- Node role label for integrated GPUs. -/
def INTEL_INTEGRATED_GPU_NODE_ROLE : String := "node-role.kubernetes.io/igpu"

/-- isIntelGpuNode from k8s.ts: early returns become boolean combinators;
the branch order and the guards (truthiness of labels and capacity) are
kept. -/
def isIntelGpuNode (node : JsValue) : Bool :=
  if truthy node = false then false
  else if isObjTy node = false then false
  else
    let labels := getField (getField node "metadata") "labels"
    let capacity := getField (getField node "status") "capacity"
    let labelHit :=
      truthy labels &&
        (isStrTrue (getField labels INTEL_GPU_NODE_LABEL) ||
         isStrTrue (getField labels INTEL_DISCRETE_GPU_NODE_ROLE) ||
         isStrTrue (getField labels INTEL_INTEGRATED_GPU_NODE_ROLE))
    let capHit := truthy capacity && (jsKeys capacity).any hasGpuPfx
    labelHit || capHit

/-- The node shape read by the typed helpers: status.capacity and
status.allocatable as string-quantity records whose values may be
undefined. -/
structure NodeStatusK where
  capacity : Option (List (String × Option String))
  allocatable : Option (List (String × Option String))
deriving DecidableEq

structure NodeK where
  status : Option NodeStatusK
deriving DecidableEq

/-- node.status?.capacity ?? the empty record. -/
def capacityEntries (node : NodeK) : List (String × Option String) :=
  match node.status with
  | some st => st.capacity.getD []
  | none => []

/-- node.status?.allocatable ?? the empty record. -/
def allocatableEntries (node : NodeK) : List (String × Option String) :=
  match node.status with
  | some st => st.allocatable.getD []
  | none => []

/-- Record read resources[key] on a string-quantity record. -/
def resGet (es : List (String × Option String)) (k : String) : Option String :=
  match es.find? (fun kv => kv.1 == k) with
  | some kv => kv.2
  | none => none

def INTEL_GPU_RESOURCE : String := "gpu.intel.com/i915"

def INTEL_GPU_XE_RESOURCE : String := "gpu.intel.com/xe"

/-- Loop body of getNodeGpuCount over one capacity entry. -/
def gpuCountStep (count : Int) (kv : String × Option String) : Int :=
  if (kv.1 == INTEL_GPU_RESOURCE || kv.1 == INTEL_GPU_XE_RESOURCE) &&
      (match kv.2 with | some s => s != "" | none => false) then
    count + ((jsParseInt (kv.2.getD "")).getD 0)
  else count

/-- getNodeGpuCount from k8s.ts: sum parseInt-or-zero of the truthy values
of the two device-count capacity keys. -/
def getNodeGpuCount (node : NodeK) : Int :=
  (capacityEntries node).foldl gpuCountStep 0

/-- GpuDevicePlugin status counters (all optional in the CRD). -/
structure PluginStatusK where
  desiredNumberScheduled : Option Int
  numberReady : Option Int
  numberUnavailable : Option Int
  numberAvailable : Option Int
deriving DecidableEq

structure GpuDevicePluginK where
  status : Option PluginStatusK
deriving DecidableEq

inductive StatusColor where
  | success
  | warning
  | error
deriving DecidableEq

/-- The read plugin.status?.desiredNumberScheduled ?? 0. -/
def desiredOf (plugin : GpuDevicePluginK) : Int :=
  (plugin.status.bind (fun s => s.desiredNumberScheduled)).getD 0

/-- The read plugin.status?.numberReady ?? 0. -/
def readyOf (plugin : GpuDevicePluginK) : Int :=
  (plugin.status.bind (fun s => s.numberReady)).getD 0

/-- The read plugin.status?.numberUnavailable ?? 0. -/
def unavailableOf (plugin : GpuDevicePluginK) : Int :=
  (plugin.status.bind (fun s => s.numberUnavailable)).getD 0

/-- pluginStatusToStatus from k8s.ts: missing counters read as 0; the
checks run in order zero-desired, any-unavailable, ready-equals-desired. -/
def pluginStatusToStatus (plugin : GpuDevicePluginK) : StatusColor :=
  if desiredOf plugin = 0 then StatusColor.warning
  else if 0 < unavailableOf plugin then StatusColor.warning
  else if readyOf plugin = desiredOf plugin then StatusColor.success
  else StatusColor.error

-- ---------------------------------------------------------------------------
-- Cluster-wide GPU aggregation (OverviewPage.tsx, lines 93-102)
-- ---------------------------------------------------------------------------

/-- JS number addition where none models NaN (absorbing). -/
def jsAddN : Option Int → Option Int → Option Int
  | some a, some b => some (a + b)
  | _, _ => none

/-- Inner loop over one node: for each capacity key equal to one of the two
device-count resources, add parseInt of the capacity value (?? the digit
zero string) and parseInt of the allocatable value likewise.  The source
applies no or-zero guard here, so a non-numeric quantity turns the running
total into NaN. -/
def overviewNodeStep (acc : Option Int × Option Int) (node : NodeK) :
    Option Int × Option Int :=
  let capacity := capacityEntries node
  let allocatable := allocatableEntries node
  capacity.foldl (fun acc2 kv =>
    if kv.1 == INTEL_GPU_RESOURCE || kv.1 == INTEL_GPU_XE_RESOURCE then
      (jsAddN acc2.1 (jsParseInt (kv.2.getD "0")),
       jsAddN acc2.2 (jsParseInt ((resGet allocatable kv.1).getD "0")))
    else acc2) acc

/-- The totalCapacityGpus and totalAllocatableGpus accumulation of
OverviewPage. -/
def overviewGpuTotals (gpuNodes : List NodeK) : Option Int × Option Int :=
  gpuNodes.foldl overviewNodeStep (some 0, some 0)

-- ---------------------------------------------------------------------------
-- Plugin-pod deduplication (IntelGpuDataContext.tsx, lines 138-145)
-- ---------------------------------------------------------------------------

structure PodK where
  name : String
  uid : Option String
deriving DecidableEq

/-- The filter with a seen set: keep a pod only when its uid is defined,
non-empty and not seen before, recording kept uids. -/
def dedupGo (seen : List String) : List PodK → List PodK
  | [] => []
  | p :: rest =>
    match p.uid with
    | none => dedupGo seen rest
    | some u =>
      if u = "" ∨ seen.contains u then dedupGo seen rest
      else p :: dedupGo (u :: seen) rest

/-- uniquePluginPods from IntelGpuDataContext.tsx. -/
def uniquePluginPods (pods : List PodK) : List PodK :=
  dedupGo [] pods

-- ---------------------------------------------------------------------------
-- Helper lemmas shared by the claims
-- ---------------------------------------------------------------------------

lemma pre_head (c : Char) (cs l : List Char) (h : isPre (c :: cs) l = true) :
    isPre [c] l = true := by
  match l with
  | [] => simp [isPre] at h
  | b :: bs =>
    simp [isPre] at h ⊢
    exact h.1

lemma helpTag_eq : helpTag = ['#', ' ', 'H', 'E', 'L', 'P', ' '] := rfl

lemma typeTag_eq : typeTag = ['#', ' ', 'T', 'Y', 'P', 'E', ' '] := rfl

lemma pre_help_hash (l : List Char) (h : isPre helpTag l = true) :
    isPre ['#'] l = true := by
  rw [helpTag_eq] at h
  exact pre_head _ _ _ h

lemma pre_type_hash (l : List Char) (h : isPre typeTag l = true) :
    isPre ['#'] l = true := by
  rw [typeTag_eq] at h
  exact pre_head _ _ _ h

-- ---------------------------------------------------------------------------
-- Claim C4
-- ---------------------------------------------------------------------------

/-- Condition of a data line whose value token fails to parse as a finite
number (or which has no value token at all). -/
def noFiniteValue (line : List Char) : Bool :=
  match splitData line with
  | some (_, _, vp) => (jsParseFloatL (firstTok vp)).isNone
  | none => true

/-- Claim C4: parsePrometheusText never fails on malformed input (the
embedding is total by construction): parsing the empty string gives the
empty map, parsing the single line "not a valid line" gives the empty map,
and any non-blank non-comment line whose value token does not parse to a
finite number leaves the parser state completely unchanged, so the line
contributes no sample. -/
theorem c4_parser_robustness :
    parsePrometheusText "" = [] ∧
    parsePrometheusText "not a valid line" = [] ∧
    ∀ (st : PState) (raw : List Char),
      trimL raw ≠ [] → isPre ['#'] (trimL raw) = false →
      noFiniteValue (trimL raw) = true → procLine st raw = st := by
  refine ⟨by decide, by decide, ?_⟩
  intro st raw hne hhash hval
  unfold procLine
  rw [if_neg hne]
  have hh : isPre helpTag (trimL raw) = false := by
    cases hp : isPre helpTag (trimL raw) with
    | false => rfl
    | true => rw [pre_help_hash _ hp] at hhash; cases hhash
  have ht : isPre typeTag (trimL raw) = false := by
    cases hp : isPre typeTag (trimL raw) with
    | false => rfl
    | true => rw [pre_type_hash _ hp] at hhash; cases hhash
  rw [hh]
  simp only [Bool.false_eq_true, if_false]
  rw [ht]
  simp only [Bool.false_eq_true, if_false]
  rw [hhash]
  simp only [Bool.false_eq_true, if_false]
  unfold noFiniteValue at hval
  cases hsd : splitData (trimL raw) with
  | none => simp [hsd]
  | some t =>
    obtain ⟨nm, lbs, vp⟩ := t
    rw [hsd] at hval
    simp at hval
    simp [hsd, hval]

/-- Witness for C4: a concrete junk data line leaves the initial state
unchanged. -/
theorem c4_parser_robustness_witness :
    procLine initPState ("abc xyz").data = initPState :=
  c4_parser_robustness.2.2 initPState ("abc xyz").data (by decide) (by decide) (by decide)

-- ---------------------------------------------------------------------------
-- Claim C1
-- ---------------------------------------------------------------------------

/-- Failing input for C1: an active-ticks sample with value -50 and a
matching total-ticks sample with value 100. -/
def c1fams : List MetricFamily :=
  [⟨"gpu_i915_engine_active_ticks", "", "",
    [⟨[("card", "card0"), ("engine", "render/0")], -50⟩]⟩,
   ⟨"gpu_i915_engine_total_ticks", "", "",
    [⟨[("card", "card0"), ("engine", "render/0")], 100⟩]⟩]

/-- Claim C1: the percentage is claimed (and documented in the source
interface) to be clamped to the range 0 to 100, but the source only
applies the upper clamp: on an active value of -50 against a total of 100
the produced entry carries pct = -50, below the claimed range, where the
claimed clamping would give 0. -/
theorem c1_engine_pct_not_clamped_below :
    (extractGpuNodeMetrics c1fams "node-a" "pod-a").engineUtilization
      = [⟨"card0", "render/0", -50⟩] ∧ ((-50 : Int) < 0) := by
  exact ⟨by with_unfolding_all decide, by decide⟩

-- ---------------------------------------------------------------------------
-- Claim C2
-- ---------------------------------------------------------------------------

/-- Input for C2: active and total tick samples that both carry only an
engine label (no card, no gpu label). -/
def c2fams : List MetricFamily :=
  [⟨"gpu_i915_engine_active_ticks", "", "", [⟨[("engine", "render/0")], 50⟩]⟩,
   ⟨"gpu_i915_engine_total_ticks", "", "", [⟨[("engine", "render/0")], 100⟩]⟩]

/-- Counterexample to C2 as stated: the active sample has neither card nor
gpu label, so its card resolves to the literal gpu0; the total sample also
has neither label and its raw engine label equals the resolved engine, yet
the join does not treat it as a match (the total side applies no literal
gpu0 fallback), so the entry resolves to 0 rather than the 50 percent the
claimed match would give. -/
theorem c2_total_without_card_gpu_never_matches_cx :
    findMatchingTotal [⟨[("engine", "render/0")], 100⟩] "gpu0" "render/0" = none ∧
    (extractGpuNodeMetrics c2fams "node-a" "pod-a").engineUtilization
      = [⟨"gpu0", "render/0", 0⟩] := by
  exact ⟨by decide, by with_unfolding_all decide⟩

/-- Claim C2 as amended: the total side falls back from the card label to
the gpu label only, with no literal gpu0 step; consequently, for an
active-ticks sample with neither card nor gpu label (resolved card gpu0),
a total-ticks sample that also has neither label never matches, whatever
its engine label, and when every total sample lacks both labels the entry
produced for such an active sample has pct 0. -/
theorem c2_total_card_fallback_amended
    (fams : List MetricFamily) (nodeName podName : String) (i : Nat)
    (active : MetricSample)
    (hi : (samplesFor fams "gpu_i915_engine_active_ticks")[i]? = some active)
    (hc : lget active.labels "card" = none)
    (hg : lget active.labels "gpu" = none)
    (ht : ∀ s ∈ samplesFor fams "gpu_i915_engine_total_ticks",
      lget s.labels "card" = none ∧ lget s.labels "gpu" = none) :
    cardOf active = "gpu0" ∧
    (extractGpuNodeMetrics fams nodeName podName).engineUtilization[i]?
      = some ⟨"gpu0", engineOf active, 0⟩ := by
  have hcard : cardOf active = "gpu0" := by
    simp [cardOf, fb2, hc, hg]
  refine ⟨hcard, ?_⟩
  have hfind : findMatchingTotal (samplesFor fams "gpu_i915_engine_total_ticks")
      "gpu0" (engineOf active) = none := by
    apply List.find?_eq_none.mpr
    intro s hs
    obtain ⟨h1, h2⟩ := ht s hs
    simp [totalCardOf, fb2, h1, h2]
  have hentry : utilEntry (samplesFor fams "gpu_i915_engine_total_ticks") active
      = ⟨"gpu0", engineOf active, 0⟩ := by
    simp only [utilEntry]
    rw [hcard, hfind]
    simp
  simp only [extractGpuNodeMetrics, List.getElem?_map, hi, Option.map_some']
  rw [hentry]

/-- Witness for the amended C2 at the concrete input of the counterexample. -/
theorem c2_total_card_fallback_amended_witness :
    cardOf (⟨[("engine", "render/0")], 50⟩ : MetricSample) = "gpu0" ∧
    (extractGpuNodeMetrics c2fams "node-a" "pod-a").engineUtilization[0]?
      = some ⟨"gpu0", engineOf ⟨[("engine", "render/0")], 50⟩, 0⟩ :=
  c2_total_card_fallback_amended c2fams "node-a" "pod-a" 0
    ⟨[("engine", "render/0")], 50⟩ (by decide) (by decide) (by decide) (by decide)

-- ---------------------------------------------------------------------------
-- Claim C7
-- ---------------------------------------------------------------------------

/-- Claim C7: pluginStatusToStatus reads missing counters as 0 and checks,
in order: zero desired gives warning, any unavailable gives warning, ready
equal to desired gives success, anything else error; with the four
concrete examples of the specification. -/
theorem c7_pluginStatusToStatus_spec :
    (∀ plugin : GpuDevicePluginK,
      (desiredOf plugin = 0 → pluginStatusToStatus plugin = StatusColor.warning) ∧
      (desiredOf plugin ≠ 0 → 0 < unavailableOf plugin →
        pluginStatusToStatus plugin = StatusColor.warning) ∧
      (desiredOf plugin ≠ 0 → ¬ 0 < unavailableOf plugin →
        readyOf plugin = desiredOf plugin →
        pluginStatusToStatus plugin = StatusColor.success) ∧
      (desiredOf plugin ≠ 0 → ¬ 0 < unavailableOf plugin →
        readyOf plugin ≠ desiredOf plugin →
        pluginStatusToStatus plugin = StatusColor.error)) ∧
    pluginStatusToStatus ⟨some ⟨some 3, some 3, some 0, none⟩⟩ = StatusColor.success ∧
    pluginStatusToStatus ⟨some ⟨some 0, none, none, none⟩⟩ = StatusColor.warning ∧
    pluginStatusToStatus ⟨some ⟨some 3, some 2, some 1, none⟩⟩ = StatusColor.warning ∧
    pluginStatusToStatus ⟨some ⟨some 3, some 1, some 0, none⟩⟩ = StatusColor.error := by
  refine ⟨?_, by decide, by decide, by decide, by decide⟩
  intro plugin
  refine ⟨?_, ?_, ?_, ?_⟩ <;> intros <;> simp [pluginStatusToStatus, *]

/-- Witness for C7 at the zero-desired plugin. -/
theorem c7_pluginStatusToStatus_spec_witness :
    pluginStatusToStatus ⟨some ⟨some 0, some 0, some 0, none⟩⟩ = StatusColor.warning :=
  (c7_pluginStatusToStatus_spec.1 ⟨some ⟨some 0, some 0, some 0, none⟩⟩).1 (by decide)

-- ---------------------------------------------------------------------------
-- Claim C8
-- ---------------------------------------------------------------------------

/-- Failing input for C8: a GPU node whose i915 capacity quantity is not
numeric. -/
def c8badNode : NodeK := ⟨some ⟨some [("gpu.intel.com/i915", some "abc")], none⟩⟩

/-- Claim C8: the OverviewPage capacity sum applies no or-zero guard to
parseInt, so a non-numeric device-count quantity drives the capacity total
to NaN (modelled none) instead of contributing 0; the allocatable total of
the same loop stays 0 because the missing allocatable entry falls back to
the digit zero string. -/
theorem c8_overview_totals_nan :
    overviewGpuTotals [c8badNode] = (none, some 0) := by decide

-- ---------------------------------------------------------------------------
-- Claim C5
-- ---------------------------------------------------------------------------

/-- The classification stated by the specification: the input is an object
and either one of the three GPU labels is the string true, or the
status.capacity map holds at least one key with the resource prefix. -/
def nodeClaimSpec (v : JsValue) : Prop :=
  (∃ fs, v = JsValue.objV fs) ∧
  ((getField (getField (getField v "metadata") "labels") INTEL_GPU_NODE_LABEL
      = JsValue.strV "true" ∨
    getField (getField (getField v "metadata") "labels") INTEL_DISCRETE_GPU_NODE_ROLE
      = JsValue.strV "true" ∨
    getField (getField (getField v "metadata") "labels") INTEL_INTEGRATED_GPU_NODE_ROLE
      = JsValue.strV "true") ∨
   (∃ gs, getField (getField v "status") "capacity" = JsValue.objV gs ∧
      ∃ kv ∈ gs, hasGpuPfx kv.1 = true))

lemma isStrTrue_iff (w : JsValue) : isStrTrue w = true ↔ w = JsValue.strV "true" := by
  cases w <;> simp [isStrTrue]

lemma truthy_of_getField_strTrue (w : JsValue) (k : String)
    (h : getField w k = JsValue.strV "true") : truthy w = true := by
  cases w <;> simp [getField] at h ⊢
  simp [truthy]

lemma labelHit_iff (labels : JsValue) (k1 k2 k3 : String) :
    (truthy labels &&
      (isStrTrue (getField labels k1) || isStrTrue (getField labels k2) ||
        isStrTrue (getField labels k3))) = true ↔
    (getField labels k1 = JsValue.strV "true" ∨
     getField labels k2 = JsValue.strV "true" ∨
     getField labels k3 = JsValue.strV "true") := by
  constructor
  · intro h
    have h2 := (Bool.and_eq_true _ _).mp h
    rcases h2 with ⟨_, hor⟩
    simp only [Bool.or_eq_true, isStrTrue_iff] at hor
    tauto
  · intro h
    rcases h with h | h | h <;>
      simp [truthy_of_getField_strTrue _ _ h, (isStrTrue_iff _).mpr h]

lemma capHit_iff (w : JsValue) :
    (truthy w && (jsKeys w).any hasGpuPfx) = true ↔
    ∃ gs, w = JsValue.objV gs ∧ ∃ kv ∈ gs, hasGpuPfx kv.1 = true := by
  cases w <;> simp [truthy, jsKeys]

/-- Claim C5: isIntelGpuNode holds exactly when the input is an object
carrying one of the three GPU labels with value true or a capacity key
with the gpu.intel.com prefix, and it is false on null, undefined and
every non-object primitive (the embedding is total, modelling that the
source never throws). -/
theorem c5_isIntelGpuNode_iff :
    (∀ v : JsValue, isIntelGpuNode v = true ↔ nodeClaimSpec v) ∧
    isIntelGpuNode JsValue.nullV = false ∧
    isIntelGpuNode JsValue.undef = false ∧
    (∀ b, isIntelGpuNode (JsValue.boolV b) = false) ∧
    (∀ q, isIntelGpuNode (JsValue.numV q) = false) ∧
    (∀ s, isIntelGpuNode (JsValue.strV s) = false) := by
  have hbool : ∀ b, isIntelGpuNode (JsValue.boolV b) = false := by
    intro b; cases b <;> rfl
  have hnum : ∀ q : ℚ, isIntelGpuNode (JsValue.numV q) = false := by
    intro q; unfold isIntelGpuNode; split
    · rfl
    · rfl
  have hstr : ∀ s, isIntelGpuNode (JsValue.strV s) = false := by
    intro s; unfold isIntelGpuNode; split
    · rfl
    · rfl
  refine ⟨?_, rfl, rfl, hbool, hnum, hstr⟩
  intro v
  cases v with
  | nullV => simp [isIntelGpuNode, truthy, isObjTy, getField, jsKeys, nodeClaimSpec]
  | undef => simp [isIntelGpuNode, truthy, isObjTy, getField, jsKeys, nodeClaimSpec]
  | boolV b => simp [hbool b, nodeClaimSpec]
  | numV q => simp [hnum q, nodeClaimSpec]
  | strV s => simp [hstr s, nodeClaimSpec]
  | arrV es => simp [isIntelGpuNode, truthy, isObjTy, getField, jsKeys, nodeClaimSpec]
  | objV fs =>
    have hred : isIntelGpuNode (JsValue.objV fs) =
        ((truthy (getField (getField (JsValue.objV fs) "metadata") "labels") &&
          (isStrTrue (getField (getField (getField (JsValue.objV fs) "metadata") "labels")
              INTEL_GPU_NODE_LABEL) ||
           isStrTrue (getField (getField (getField (JsValue.objV fs) "metadata") "labels")
              INTEL_DISCRETE_GPU_NODE_ROLE) ||
           isStrTrue (getField (getField (getField (JsValue.objV fs) "metadata") "labels")
              INTEL_INTEGRATED_GPU_NODE_ROLE))) ||
         (truthy (getField (getField (JsValue.objV fs) "status") "capacity") &&
          (jsKeys (getField (getField (JsValue.objV fs) "status") "capacity")).any hasGpuPfx)) := rfl
    rw [hred]
    rw [Bool.or_eq_true, labelHit_iff, capHit_iff]
    simp [nodeClaimSpec]

-- ---------------------------------------------------------------------------
-- Claim C6
-- ---------------------------------------------------------------------------

/-- Integer parse with non-numeric (and absent) values read as 0, the
convention stated by the specification for counts and sums. -/
def intVal0 : Option String → Int
  | some s => (jsParseInt s).getD 0
  | none => 0

/-- The count stated by the specification: the sum of the integer-parsed
values of exactly the two device-count capacity keys. -/
def gpuCountSpec : List (String × Option String) → Int
  | [] => 0
  | kv :: t =>
    (if kv.1 = INTEL_GPU_RESOURCE ∨ kv.1 = INTEL_GPU_XE_RESOURCE then intVal0 kv.2 else 0)
      + gpuCountSpec t

lemma jsParseIntEmpty : jsParseInt "" = none := rfl

lemma foldl_gpuCountStep_shift (es : List (String × Option String)) (a : Int) :
    es.foldl gpuCountStep a = a + es.foldl gpuCountStep 0 := by
  induction es generalizing a with
  | nil => simp
  | cons kv t ih =>
    rw [List.foldl_cons, List.foldl_cons, ih (gpuCountStep a kv), ih (gpuCountStep 0 kv)]
    have hstep : gpuCountStep a kv = a + gpuCountStep 0 kv := by
      unfold gpuCountStep; split
      · omega
      · omega
    omega

lemma gpuCount_fold_eq_spec (es : List (String × Option String)) :
    es.foldl gpuCountStep 0 = gpuCountSpec es := by
  induction es with
  | nil => rfl
  | cons kv t ih =>
    rw [List.foldl_cons, foldl_gpuCountStep_shift, ih]
    have hstep : gpuCountStep 0 kv =
        (if kv.1 = INTEL_GPU_RESOURCE ∨ kv.1 = INTEL_GPU_XE_RESOURCE then intVal0 kv.2 else 0) := by
      obtain ⟨k, v⟩ := kv
      by_cases hk : k = INTEL_GPU_RESOURCE ∨ k = INTEL_GPU_XE_RESOURCE
      · cases v with
        | none => simp [gpuCountStep, hk, intVal0]
        | some s =>
          by_cases hs : s = ""
          · subst hs; simp [gpuCountStep, hk, intVal0, jsParseIntEmpty]
          · simp [gpuCountStep, hk, hs, intVal0]
      · obtain ⟨h1, h2⟩ := not_or.mp hk
        simp [gpuCountStep, h1, h2, hk]
    rw [hstep]
    rfl

/-- Claim C6: getNodeGpuCount equals the sum, over exactly the two
device-count capacity keys i915 and xe, of their integer-parsed values
with non-numeric values read as 0; appending an entry under any other key
(such as millicores or memory.max) leaves the count unchanged; and the
concrete node with capacity i915 three and xe two counts five. -/
theorem c6_getNodeGpuCount_spec :
    (∀ node : NodeK, getNodeGpuCount node = gpuCountSpec (capacityEntries node)) ∧
    (∀ (es : List (String × Option String)) (k : String) (v : Option String),
      ¬(k = INTEL_GPU_RESOURCE ∨ k = INTEL_GPU_XE_RESOURCE) →
      (es ++ [(k, v)]).foldl gpuCountStep 0 = es.foldl gpuCountStep 0) ∧
    getNodeGpuCount
      ⟨some ⟨some [("gpu.intel.com/i915", some "3"), ("gpu.intel.com/xe", some "2")], none⟩⟩
      = 5 := by
  refine ⟨?_, ?_, by decide⟩
  · intro node
    exact gpuCount_fold_eq_spec (capacityEntries node)
  · intro es k v hk
    obtain ⟨h1, h2⟩ := not_or.mp hk
    rw [List.foldl_append]
    simp [gpuCountStep, h1, h2]

/-- Witness for C6: a millicores entry appended to the empty capacity
record does not change the count. -/
theorem c6_getNodeGpuCount_spec_witness :
    (([] : List (String × Option String)) ++ [("gpu.intel.com/millicores", some "1000")]).foldl
      gpuCountStep 0 = ([] : List (String × Option String)).foldl gpuCountStep 0 :=
  c6_getNodeGpuCount_spec.2.1 [] "gpu.intel.com/millicores" (some "1000") (by decide)

-- ---------------------------------------------------------------------------
-- Claims C9 and C10
-- ---------------------------------------------------------------------------

lemma dedupGo_sublist (pods : List PodK) : ∀ seen, (dedupGo seen pods).Sublist pods := by
  induction pods with
  | nil => intro seen; simp [dedupGo]
  | cons p rest ih =>
    intro seen
    simp only [dedupGo]
    split
    · exact (ih seen).cons p
    next w hup =>
      split
      · exact (ih seen).cons p
      · exact (ih (w :: seen)).cons₂ p

lemma dedupGo_countP (u : String) (hu : u ≠ "") :
    ∀ (pods : List PodK) (seen : List String),
      (dedupGo seen pods).countP (fun p => p.uid == some u) =
        if seen.contains u then 0
        else if pods.any (fun p => p.uid == some u) then 1 else 0 := by
  intro pods
  induction pods with
  | nil => intro seen; simp [dedupGo]
  | cons p rest ih =>
    intro seen
    simp only [dedupGo]
    split
    next hup =>
      rw [ih seen]
      simp [List.any_cons, hup]
    next w hup =>
      split
      next hcond =>
        rw [ih seen]
        by_cases hwu : w = u
        · have hc : seen.contains u = true := by
            rcases hcond with h | h
            · exact absurd (hwu.symm.trans h) hu
            · exact hwu ▸ h
          rw [hc]
          simp
        · have hb : ((p.uid == some u) : Bool) = false := by
            rw [hup]
            simp [hwu]
          simp [List.any_cons, hb]
      next hcond =>
        have hw2 : seen.contains w = false := by
          cases hcw : seen.contains w with
          | false => rfl
          | true => exact absurd (Or.inr hcw) hcond
        rw [List.countP_cons, ih (w :: seen)]
        by_cases hwu : w = u
        · have h1 : (w :: seen).contains u = true := by
            rw [List.contains_cons]
            simp [hwu]
          have hb : ((p.uid == some u) : Bool) = true := by
            rw [hup]
            simp [hwu]
          have hw2u : seen.contains u = false := hwu ▸ hw2
          rw [h1, hb, hw2u]
          simp [List.any_cons, hb]
        · have hbw : ((u == w) : Bool) = false := by
            simp [Ne.symm hwu]
          have hcc : (w :: seen).contains u = seen.contains u := by
            rw [List.contains_cons, hbw, Bool.false_or]
          have hb : ((p.uid == some u) : Bool) = false := by
            rw [hup]
            simp [hwu]
          rw [hcc, hb]
          simp [List.any_cons, hb]

lemma dedupGo_find (u : String) (hu : u ≠ "") :
    ∀ (pods : List PodK) (seen : List String), seen.contains u = false →
      (dedupGo seen pods).find? (fun p => p.uid == some u) =
        pods.find? (fun p => p.uid == some u) := by
  intro pods
  induction pods with
  | nil => intro seen _; simp [dedupGo]
  | cons p rest ih =>
    intro seen hseen
    simp only [dedupGo]
    split
    next hup =>
      rw [ih seen hseen]
      simp [List.find?_cons, hup]
    next w hup =>
      split
      next hcond =>
        have hwu : w ≠ u := by
          intro he
          subst he
          rcases hcond with h | h
          · exact hu h
          · rw [h] at hseen; cases hseen
        have hb : ((p.uid == some u) : Bool) = false := by
          rw [hup]
          simp [hwu]
        rw [ih seen hseen]
        simp [List.find?_cons, hb]
      next hcond =>
        by_cases hwu : w = u
        · have hb : ((p.uid == some u) : Bool) = true := by
            rw [hup]
            simp [hwu]
          simp [List.find?_cons, hb]
        · have hb : ((p.uid == some u) : Bool) = false := by
            rw [hup]
            simp [hwu]
          have hbw : ((u == w) : Bool) = false := by
            simp [Ne.symm hwu]
          have hs2 : (w :: seen).contains u = false := by
            rw [List.contains_cons, hbw, Bool.false_or]
            exact hseen
          simp [List.find?_cons, hb, ih (w :: seen) hs2]

/-- Claim C9: the deduplicated plugin-pod list is a sublist of the
concatenated input (stable order); for every non-empty uid the output
holds exactly one entry when the input holds at least one and none
otherwise; and the surviving entry is the first input occurrence. -/
theorem c9_unique_pods_dedup (pods : List PodK) :
    (uniquePluginPods pods).Sublist pods ∧
    (∀ u : String, u ≠ "" →
      (uniquePluginPods pods).countP (fun p => p.uid == some u) =
        if pods.any (fun p => p.uid == some u) then 1 else 0) ∧
    (∀ u : String, u ≠ "" →
      (uniquePluginPods pods).find? (fun p => p.uid == some u) =
        pods.find? (fun p => p.uid == some u)) := by
  refine ⟨dedupGo_sublist pods [], ?_, ?_⟩
  · intro u hu
    have h := dedupGo_countP u hu pods []
    simpa using h
  · intro u hu
    exact dedupGo_find u hu pods [] rfl

/-- Three overlapping pod lists sharing the uid abc, concatenated. -/
def c9demo : List PodK :=
  [⟨"a", some "abc"⟩, ⟨"b", some "x"⟩] ++ [⟨"c", some "abc"⟩] ++
    [⟨"d", some "abc"⟩, ⟨"e", some "y"⟩]

/-- Witness for C9: the merged demo list keeps exactly one entry with uid
abc. -/
theorem c9_unique_pods_dedup_witness :
    (uniquePluginPods c9demo).countP (fun p => p.uid == some "abc") =
      (if c9demo.any (fun p => p.uid == some "abc") then 1 else 0) ∧
    (if c9demo.any (fun p => p.uid == some "abc") then 1 else 0) = 1 :=
  ⟨(c9_unique_pods_dedup c9demo).2.1 "abc" (by decide), by decide⟩

lemma dedupGo_mem (pods : List PodK) :
    ∀ seen p, p ∈ dedupGo seen pods → ∃ u, p.uid = some u ∧ u ≠ "" := by
  induction pods with
  | nil => intro seen p h; simp [dedupGo] at h
  | cons q rest ih =>
    intro seen p h
    simp only [dedupGo] at h
    split at h
    · exact ih seen p h
    next w hq =>
      split at h
      · exact ih seen p h
      next hcond =>
        rcases List.mem_cons.mp h with he | hm
        · subst he
          exact ⟨w, hq, fun h0 => hcond (Or.inl h0)⟩
        · exact ih (w :: seen) p hm

/-- Claim C10: every pod surviving deduplication carries a defined
non-empty uid; in particular a single pod without uid is dropped even
though it occurs only once. -/
theorem c10_unique_pods_drop_missing_uid :
    (∀ (pods : List PodK) (p : PodK), p ∈ uniquePluginPods pods →
      ∃ u, p.uid = some u ∧ u ≠ "") ∧
    uniquePluginPods [⟨"solo", none⟩] = [] :=
  ⟨fun pods p h => dedupGo_mem pods [] p h, by decide⟩

/-- Pods without uid or with the empty uid alongside one well-formed pod. -/
def c10demo : List PodK := [⟨"a", none⟩, ⟨"b", some ""⟩, ⟨"c", some "u1"⟩]

/-- Witness for C10 at the surviving pod of the demo list. -/
theorem c10_unique_pods_drop_missing_uid_witness :
    ∃ u, (⟨"c", some "u1"⟩ : PodK).uid = some u ∧ u ≠ "" :=
  c10_unique_pods_drop_missing_uid.1 c10demo ⟨"c", some "u1"⟩ (by decide)

-- ---------------------------------------------------------------------------
-- Claim C3: metadata tracking of the parser
-- ---------------------------------------------------------------------------

/-- The name and help text carried by a HELP comment line, none for any
other line. -/
def helpMeta (raw : List Char) : Option (String × String) :=
  let line := trimL raw
  if isPre helpTag line then
    let rest := line.drop 7
    let i := idxOfC rest ' '
    if 0 ≤ i then some (str (sliceL rest 0 i.toNat), str (rest.drop (i.toNat + 1)))
    else some (str rest, "")
  else none

/-- The type string carried by a TYPE comment line, none for any other
line. -/
def typeMeta (raw : List Char) : Option String :=
  let line := trimL raw
  if isPre typeTag line then
    let rest := line.drop 7
    let i := idxOfC rest ' '
    some (if 0 ≤ i then str (rest.drop (i.toNat + 1)) else "")
  else none

/-- The name token carried by a TYPE comment line (the part before the
first space), none for any other line.  The source never reads this token;
it is defined here to state which family a TYPE line names. -/
def typeNameMeta (raw : List Char) : Option String :=
  let line := trimL raw
  if isPre typeTag line then
    let rest := line.drop 7
    let i := idxOfC rest ' '
    some (if 0 ≤ i then str (sliceL rest 0 i.toNat) else str rest)
  else none

/-- Name and help of the most recent HELP line of a line list, both empty
when there is none. -/
def mostRecentHelp (ls : List (List Char)) : String × String :=
  ls.foldl (fun a l => (helpMeta l).getD a) ("", "")

/-- Type string of the most recent TYPE line, empty when there is none. -/
def mostRecentType (ls : List (List Char)) : String :=
  ls.foldl (fun a l => (typeMeta l).getD a) ""

/-- Name token of the most recent TYPE line, none when there is no TYPE
line. -/
def mostRecentTypeName (ls : List (List Char)) : Option String :=
  ls.foldl (fun a l =>
    match typeNameMeta l with
    | some x => some x
    | none => a) none

/-- The sample produced by a raw line: none for blank lines, comment lines
(HELP and TYPE included) and lines without a finite value. -/
def dataSample (raw : List Char) : Option (String × List (String × String) × ℚ) :=
  let line := trimL raw
  if line = [] then none
  else if isPre ['#'] line then none
  else
    match splitData line with
    | none => none
    | some (nm, lbs, vp) => (jsParseFloatL (firstTok vp)).map (fun v => (nm, lbs, v))

lemma pre_help_not_type (l : List Char) (h : isPre helpTag l = true) :
    isPre typeTag l = false := by
  rw [helpTag_eq] at h
  rw [typeTag_eq]
  match l with
  | [] => simp [isPre] at h
  | [a] => simp [isPre] at h
  | [a, b] => simp [isPre] at h
  | a :: b :: c :: rest =>
    rw [Bool.eq_false_iff]
    intro hT
    simp only [isPre, Bool.and_eq_true, beq_iff_eq] at h hT
    exact absurd (hT.2.2.1.trans h.2.2.1.symm) (by decide)

lemma pre_type_not_help (l : List Char) (h : isPre typeTag l = true) :
    isPre helpTag l = false := by
  rw [typeTag_eq] at h
  rw [helpTag_eq]
  match l with
  | [] => simp [isPre] at h
  | [a] => simp [isPre] at h
  | [a, b] => simp [isPre] at h
  | a :: b :: c :: rest =>
    rw [Bool.eq_false_iff]
    intro hH
    simp only [isPre, Bool.and_eq_true, beq_iff_eq] at h hH
    exact absurd (hH.2.2.1.trans h.2.2.1.symm) (by decide)

lemma procLine_families (st : PState) (raw : List Char) :
    (procLine st raw).families =
      match dataSample raw with
      | none => st.families
      | some (nm, lbs, v) =>
          upsertFam st.families st.currentName st.currentHelp st.currentType nm lbs v := by
  simp only [procLine, dataSample]
  by_cases h0 : trimL raw = []
  · simp only [if_pos h0]
  · simp only [if_neg h0]
    by_cases hh : isPre helpTag (trimL raw) = true
    · simp only [hh, if_true]
      have hhash : isPre ['#'] (trimL raw) = true := pre_help_hash _ hh
      simp only [hhash, if_true]
      split
      · rfl
      · rfl
    · simp only [hh, Bool.false_eq_true, if_false]
      by_cases htp : isPre typeTag (trimL raw) = true
      · simp only [htp, if_true]
        have hhash : isPre ['#'] (trimL raw) = true := pre_type_hash _ htp
        simp only [hhash, if_true]
      · simp only [htp, Bool.false_eq_true, if_false]
        by_cases hhash : isPre ['#'] (trimL raw) = true
        · simp only [hhash, if_true]
        · simp only [hhash, Bool.false_eq_true, if_false]
          cases hsd : splitData (trimL raw) with
          | none => rfl
          | some t =>
            obtain ⟨nm, lbs, vp⟩ := t
            cases hpf : jsParseFloatL (firstTok vp) with
            | none => simp [hpf]
            | some v => simp [hpf]

lemma procLine_meta (st : PState) (raw : List Char) :
    (procLine st raw).currentName = ((helpMeta raw).map Prod.fst).getD st.currentName ∧
    (procLine st raw).currentHelp = ((helpMeta raw).map Prod.snd).getD st.currentHelp ∧
    (procLine st raw).currentType = (typeMeta raw).getD st.currentType := by
  simp only [procLine, helpMeta, typeMeta]
  by_cases h0 : trimL raw = []
  · rw [h0]
    simp [helpTag_eq, typeTag_eq, isPre]
  · simp only [if_neg h0]
    by_cases hh : isPre helpTag (trimL raw) = true
    · have htp : isPre typeTag (trimL raw) = false := pre_help_not_type _ hh
      simp only [hh, if_true, htp, Bool.false_eq_true, if_false]
      split
      · simp
      · simp
    · simp only [hh, Bool.false_eq_true, if_false]
      by_cases htp : isPre typeTag (trimL raw) = true
      · simp only [htp, if_true]
        simp
      · simp only [htp, Bool.false_eq_true, if_false]
        by_cases hhash : isPre ['#'] (trimL raw) = true
        · simp only [hhash, if_true]
          simp
        · simp only [hhash, Bool.false_eq_true, if_false]
          cases hsd : splitData (trimL raw) with
          | none => simp
          | some t =>
            obtain ⟨nm, lbs, vp⟩ := t
            cases hpf : jsParseFloatL (firstTok vp) with
            | none => simp [hpf]
            | some v => simp [hpf]

lemma foldl_meta (ls : List (List Char)) : ∀ st : PState,
    ((ls.foldl procLine st).currentName, (ls.foldl procLine st).currentHelp) =
      ls.foldl (fun a l => (helpMeta l).getD a) (st.currentName, st.currentHelp) ∧
    (ls.foldl procLine st).currentType =
      ls.foldl (fun a l => (typeMeta l).getD a) st.currentType := by
  induction ls with
  | nil => intro st; exact ⟨rfl, rfl⟩
  | cons l t ih =>
    intro st
    simp only [List.foldl_cons]
    obtain ⟨h1, h2, h3⟩ := procLine_meta st l
    obtain ⟨ih1, ih2⟩ := ih (procLine st l)
    constructor
    · rw [ih1, h1, h2]
      congr 1
      cases helpMeta l <;> rfl
    · rw [ih2, h3]

lemma parseLines_meta (p : List (List Char)) :
    ((parseLines p).currentName, (parseLines p).currentHelp) = mostRecentHelp p ∧
    (parseLines p).currentType = mostRecentType p :=
  foldl_meta p initPState

lemma getFam_addSample (fams : List MetricFamily) (nm : String) (s : MetricSample)
    (n : String) :
    getFam (addSample fams nm s) n =
      (getFam fams n).map
        (fun f => if f.name == nm then { f with samples := f.samples ++ [s] } else f) := by
  unfold getFam addSample
  rw [List.find?_map]
  have hpred : ((fun f : MetricFamily => f.name == n) ∘
      (fun f => if f.name == nm then { f with samples := f.samples ++ [s] } else f)) =
      (fun f : MetricFamily => f.name == n) := by
    funext f
    by_cases h : (f.name == nm) = true
    · simp [Function.comp, h]
    · simp [Function.comp, h]
  rw [hpred]

lemma getFam_append (fams l2 : List MetricFamily) (n : String) (f : MetricFamily)
    (h : getFam fams n = some f) : getFam (fams ++ l2) n = some f := by
  unfold getFam at h ⊢
  rw [List.find?_append, h]
  rfl

lemma procLine_persist (st : PState) (raw : List Char) (n : String) (f : MetricFamily)
    (h : getFam st.families n = some f) :
    ∃ g, getFam (procLine st raw).families n = some g ∧
      g.name = f.name ∧ g.help = f.help ∧ g.type = f.type := by
  rw [procLine_families]
  cases hd : dataSample raw with
  | none => exact ⟨f, h, rfl, rfl, rfl⟩
  | some t =>
    obtain ⟨nm, lbs, v⟩ := t
    unfold upsertFam
    cases hg : getFam st.families nm with
    | some f0 =>
      simp only [hg]
      rw [getFam_addSample, h]
      by_cases hb : (f.name == nm) = true
      · exact ⟨_, rfl, by simp [hb], by simp [hb], by simp [hb]⟩
      · exact ⟨_, rfl, by simp [hb], by simp [hb], by simp [hb]⟩
    | none =>
      simp only [hg]
      exact ⟨f, getFam_append _ _ _ _ h, rfl, rfl, rfl⟩

lemma foldl_persist (q : List (List Char)) : ∀ (st : PState) (n : String) (f : MetricFamily),
    getFam st.families n = some f →
    ∃ g, getFam ((q.foldl procLine st)).families n = some g ∧
      g.name = f.name ∧ g.help = f.help ∧ g.type = f.type := by
  induction q with
  | nil => intro st n f h; exact ⟨f, h, rfl, rfl, rfl⟩
  | cons l t ih =>
    intro st n f h
    obtain ⟨g1, hg1, e1, e2, e3⟩ := procLine_persist st l n f h
    obtain ⟨g2, hg2, d1, d2, d3⟩ := ih (procLine st l) n g1 hg1
    refine ⟨g2, ?_, d1.trans e1, d2.trans e2, d3.trans e3⟩
    rw [List.foldl_cons]
    exact hg2

lemma procLine_create (st : PState) (raw : List Char) (n : String) (f : MetricFamily)
    (h0 : getFam st.families n = none)
    (h1 : getFam (procLine st raw).families n = some f) :
    f.name = n ∧
    f.help = (if n = st.currentName then st.currentHelp else "") ∧
    f.type = (if n = st.currentName then st.currentType else "") := by
  rw [procLine_families] at h1
  cases hd : dataSample raw with
  | none =>
    rw [hd] at h1
    rw [h0] at h1
    cases h1
  | some t =>
    obtain ⟨nm, lbs, v⟩ := t
    rw [hd] at h1
    unfold upsertFam at h1
    cases hg : getFam st.families nm with
    | some f0 =>
      simp only [hg] at h1
      rw [getFam_addSample, h0] at h1
      cases h1
    | none =>
      simp only [hg] at h1
      unfold getFam at h0 h1
      rw [List.find?_append, h0] at h1
      simp only [Option.none_orElse, List.find?_cons, List.find?_nil] at h1
      by_cases hnm : ((nm == n) : Bool) = true
      · have hnmeq : nm = n := by
          exact beq_iff_eq.mp hnm
        simp only [hnm, if_true] at h1
        obtain rfl := (Option.some.injEq _ _).mp h1
        subst hnmeq
        exact ⟨rfl, rfl, rfl⟩
      · simp only [hnm, Bool.false_eq_true, if_false] at h1
        cases h1

lemma parseLines_append_one (p : List (List Char)) (d : List Char) :
    parseLines (p ++ [d]) = procLine (parseLines p) d := by
  unfold parseLines
  rw [List.foldl_append]
  rfl

/-- Claim C3 as amended: when a family is created (its first data line
appears), its help text is the help of the most recent preceding HELP
line, and its type is the type string of the most recent preceding TYPE
line, but both are gated on one and the same condition: the family name
must equal the name carried by the most recent preceding HELP line (the
name carried by a TYPE line is never consulted); both fields are empty
when that gate fails, and help and type never change afterwards. -/
theorem c3_family_metadata_gating_amended
    (p : List (List Char)) (d : List Char) (n : String) (f : MetricFamily)
    (h0 : getFam (parseLines p).families n = none)
    (h1 : getFam (parseLines (p ++ [d])).families n = some f) :
    f.name = n ∧
    f.help = (if n = (mostRecentHelp p).1 then (mostRecentHelp p).2 else "") ∧
    f.type = (if n = (mostRecentHelp p).1 then mostRecentType p else "") ∧
    ∀ q, ∃ g, getFam (parseLines (p ++ [d] ++ q)).families n = some g ∧
      g.help = f.help ∧ g.type = f.type := by
  have hstep := parseLines_append_one p d
  rw [hstep] at h1
  obtain ⟨e1, e2, e3⟩ := procLine_create (parseLines p) d n f h0 h1
  obtain ⟨m1, m2⟩ := parseLines_meta p
  have hn : (parseLines p).currentName = (mostRecentHelp p).1 := congrArg Prod.fst m1
  have hhp : (parseLines p).currentHelp = (mostRecentHelp p).2 := congrArg Prod.snd m1
  refine ⟨e1, ?_, ?_, ?_⟩
  · rw [e2, hn, hhp]
  · rw [e3, hn, m2]
  · intro q
    have hq : parseLines (p ++ [d] ++ q) = q.foldl procLine (parseLines (p ++ [d])) := by
      unfold parseLines
      rw [List.foldl_append]
    rw [hq, hstep]
    obtain ⟨g, hg, _, d2, d3⟩ := foldl_persist q (procLine (parseLines p) d) n f h1
    exact ⟨g, hg, d2, d3⟩

/-- Lines preceding the first data line of the witness input. -/
def c3p : List (List Char) := [("# HELP foo h").data, ("# TYPE bar gauge").data]

/-- The first data line of the witness input. -/
def c3d : List Char := ("foo 1").data

/-- The family created for the witness input. -/
def c3fam : MetricFamily := ⟨"foo", "h", "gauge", [⟨[], 1⟩]⟩

/-- Witness for the amended C3 at a concrete input where the most recent
TYPE line names a different family. -/
theorem c3_family_metadata_gating_amended_witness :
    c3fam.name = "foo" ∧
    c3fam.help = (if "foo" = (mostRecentHelp c3p).1 then (mostRecentHelp c3p).2 else "") ∧
    c3fam.type = (if "foo" = (mostRecentHelp c3p).1 then mostRecentType c3p else "") ∧
    ∀ q, ∃ g, getFam (parseLines (c3p ++ [c3d] ++ q)).families "foo" = some g ∧
      g.help = c3fam.help ∧ g.type = c3fam.type :=
  c3_family_metadata_gating_amended c3p c3d "foo" c3fam
    (by with_unfolding_all decide) (by with_unfolding_all decide)

/-- Counterexample to C3 as stated: in this input the most recent TYPE
comment line preceding the first data line of family foo names bar, not
foo, yet the family foo is created with the non-empty type gauge, because
the gate compares against the HELP-tracked name only. -/
theorem c3_type_gate_uses_help_name_cx :
    getFam (parsePrometheusText "# HELP foo h\n# TYPE bar gauge\nfoo 1") "foo"
      = some ⟨"foo", "h", "gauge", [⟨[], 1⟩]⟩ ∧
    mostRecentTypeName (splitNl ("# HELP foo h\n# TYPE bar gauge\nfoo 1").data)
      = some "bar" ∧
    ("bar" : String) ≠ "foo" :=
  ⟨by with_unfolding_all decide, by decide, by decide⟩
